import Mathlib

set_option linter.unusedVariables false

/-- Position held by a user in one stock: mirrors the JSON object stored
per ticker in the portfolio column (database.py, buy_stock and
sell_stock), with integer quantity and rational average_price. -/
structure Position where
  quantity : ℤ
  average_price : ℚ
deriving DecidableEq

/-- Portfolio: the JSON mapping from ticker to Position stored in each
UserHistory row, modelled as an association list; the code keeps its
keys unique (Python dict). -/
abbrev Portfolio := List (String × Position)

/-- UserSnapshot: one row of the UserHistory table, the timestamp
abstracted away; rows are kept newest first. -/
structure UserSnapshot where
  balance : ℚ
  cash : ℚ
  portfolio : Portfolio
deriving DecidableEq

/-- Store: the SQLite database state used by database.py. users mirrors
the Users table (user_id, username); userHistory the UserHistory table
with the newest row first, matching the timestamp order; stocks the
Stocks table (ticker, name), keyed by ticker as the spec describes the
Stocks entity; stockHistory the StockHistory table as
(ticker, (price, volume)) rows, newest first. -/
structure Store where
  users : List (ℤ × String)
  userHistory : List (ℤ × UserSnapshot)
  stocks : List (String × String)
  stockHistory : List (String × (ℚ × ℤ))
deriving DecidableEq

/-- alookup: first association for a key; given newest-first ordering
this is the row with the largest timestamp. -/
def alookup {α β : Type} [DecidableEq α] : List (α × β) → α → Option β
  | [], _ => none
  | (k, v) :: rest, key => if k = key then some v else alookup rest key

/-- aupdate: replace the value at the first occurrence of a key, the
Python dict item assignment for an existing key. -/
def aupdate {α β : Type} [DecidableEq α] : List (α × β) → α → β → List (α × β)
  | [], key, v => [(key, v)]
  | (k, w) :: rest, key, v =>
    if k = key then (k, v) :: rest else (k, w) :: aupdate rest key v

/-- aerase: delete the first occurrence of a key, the Python del
statement for a dict with unique keys. -/
def aerase {α β : Type} [DecidableEq α] : List (α × β) → α → List (α × β)
  | [], _ => []
  | (k, w) :: rest, key => if k = key then rest else (k, w) :: aerase rest key

/-- Database.get_latest_price (database.py lines 200-231): none when the
ticker is missing from Stocks or has no StockHistory row; otherwise the
price of the newest StockHistory row. -/
def get_latest_price (s : Store) (ticker : String) : Option ℚ :=
  match alookup s.stocks ticker with
  | none => none
  | some _ => (alookup s.stockHistory ticker).map Prod.fst

/-- Portfolio market value computed inside buy_stock and sell_stock
(database.py lines 332 and 401): sum over all holdings of quantity times
the latest price; none models the exception raised when a held ticker
has no price data, which the handler catches leaving the store
unchanged. -/
def portfolioValue (s : Store) : Portfolio → Option ℚ
  | [] => some 0
  | (t, pos) :: rest =>
    match get_latest_price s t with
    | none => none
    | some p => (portfolioValue s rest).map (fun v => (pos.quantity : ℚ) * p + v)

/-- Latest user row: the SQL join of Users with the newest UserHistory
row for the user_id (database.py lines 291-300); some only when the user
has both a Users row and at least one history row. -/
def lookupLatest (s : Store) (uid : ℤ) : Option (String × UserSnapshot) :=
  match alookup s.users uid, alookup s.userHistory uid with
  | some name, some snap => some (name, snap)
  | _, _ => none

/-- Latest cash of a user, read off the newest UserHistory row. -/
def latestCash (s : Store) (uid : ℤ) : Option ℚ :=
  (lookupLatest s uid).map (fun p => p.2.cash)

/-- Latest portfolio of a user, read off the newest UserHistory row;
empty when the user has no history. -/
def latestPortfolio (s : Store) (uid : ℤ) : Portfolio :=
  match alookup s.userHistory uid with
  | none => []
  | some snap => snap.portfolio

/-- Held quantity of a ticker in a portfolio: zero when absent, matching
the disjunction on database.py line 384. -/
def heldQty (port : Portfolio) (ticker : String) : ℤ :=
  match alookup port ticker with
  | none => 0
  | some pos => pos.quantity

/-- Business level error outcomes of database.py: each constructor
stands for one of the distinct error message strings returned. -/
inductive TxError where
  | missingPrice
  | userNotFound
  | insufficientFunds
  | insufficientShares
  | internalError
deriving DecidableEq

/-- Result of buy_stock and sell_stock: the Python functions return
either the username on success or an error string containing the word
Error; the engine distinguishes the two cases. -/
inductive TxResult where
  | ok (username : String)
  | err (e : TxError)
deriving DecidableEq

/-- Portfolio update performed by Database.buy_stock (lines 318-328):
weighted average price on an existing position, a fresh entry appended
at the end otherwise (Python dict insertion order). The none case
models the ZeroDivisionError raised when the new quantity is zero. -/
def buyUpdate (port : Portfolio) (ticker : String) (qty : ℤ) (price : ℚ) :
    Option Portfolio :=
  match alookup port ticker with
  | some pos =>
    let newQ := pos.quantity + qty
    if newQ = 0 then none
    else some (aupdate port ticker
      ⟨newQ, ((pos.quantity : ℚ) * pos.average_price + (qty : ℚ) * price) / (newQ : ℚ)⟩)
  | none => some (port ++ [(ticker, ⟨qty, price⟩)])

/-- Database.buy_stock (database.py lines 277-348), the SQLite state
passed explicitly and money as exact rationals. Every error branch
returns the store unchanged, exactly as the code returns before any
INSERT statement runs. -/
def buy_stock (s : Store) (uid : ℤ) (ticker : String) (qty : ℤ) : TxResult × Store :=
  match get_latest_price s ticker with
  | none => (.err .missingPrice, s)
  | some price =>
    match lookupLatest s uid with
    | none => (.err .userNotFound, s)
    | some (username, snap) =>
      if snap.cash < (qty : ℚ) * price then (.err .insufficientFunds, s)
      else
        match buyUpdate snap.portfolio ticker qty price with
        | none => (.err .internalError, s)
        | some port' =>
          match portfolioValue s port' with
          | none => (.err .internalError, s)
          | some pv =>
            (.ok username,
             { s with userHistory :=
                 (uid, ⟨snap.cash - (qty : ℚ) * price + pv,
                        snap.cash - (qty : ℚ) * price, port'⟩) :: s.userHistory })

/-- Database.sell_stock (database.py lines 350-417). The insufficient
shares branch covers both a ticker absent from the portfolio and a held
quantity below qty, matching the disjunction on line 384. -/
def sell_stock (s : Store) (uid : ℤ) (ticker : String) (qty : ℤ) : TxResult × Store :=
  match get_latest_price s ticker with
  | none => (.err .missingPrice, s)
  | some sellPrice =>
    match lookupLatest s uid with
    | none => (.err .userNotFound, s)
    | some (username, snap) =>
      match alookup snap.portfolio ticker with
      | none => (.err .insufficientShares, s)
      | some pos =>
        if pos.quantity < qty then (.err .insufficientShares, s)
        else
          match portfolioValue s (if pos.quantity = qty then aerase snap.portfolio ticker
              else aupdate snap.portfolio ticker ⟨pos.quantity - qty, pos.average_price⟩) with
          | none => (.err .internalError, s)
          | some pv =>
            (.ok username,
             { s with userHistory :=
                 (uid, ⟨snap.cash + (qty : ℚ) * sellPrice + pv,
                        snap.cash + (qty : ℚ) * sellPrice,
                        if pos.quantity = qty then aerase snap.portfolio ticker
                        else aupdate snap.portfolio ticker
                          ⟨pos.quantity - qty, pos.average_price⟩⟩) :: s.userHistory })

/-- Database.add_user (database.py lines 98-126): INSERT OR IGNORE into
Users, and a first history row only when the user was actually
inserted (the rowcount check on line 111). -/
def add_user (s : Store) (uid : ℤ) (username : String) (initial_cash : ℚ) : Store :=
  match alookup s.users uid with
  | some _ => s
  | none =>
    { s with users := s.users ++ [(uid, username)],
             userHistory := (uid, ⟨initial_cash, initial_cash, []⟩) :: s.userHistory }

/-- Database.user_exists (database.py lines 128-140). -/
def user_exists (s : Store) (uid : ℤ) : Bool :=
  (alookup s.users uid).isSome

/-- Database.company_exists (database.py lines 186-198): lookup by
company name. -/
def company_exists (s : Store) (name : String) : Bool :=
  s.stocks.any (fun p => p.2 == name)

/-- Database.insert_stock_data (database.py lines 44-68): INSERT OR
IGNORE into Stocks — the spec describes the Stocks entity as keyed by
symbol, so the ignore fires exactly when the ticker is already present
(the tables.sql schema itself is not among the sources) — followed by an
unconditional insert of one StockHistory row. -/
def insert_stock_data (s : Store) (name ticker : String) (price : ℚ) (volume : ℤ) : Store :=
  let stocks' := match alookup s.stocks ticker with
                 | some _ => s.stocks
                 | none => s.stocks ++ [(ticker, name)]
  { s with stocks := stocks', stockHistory := (ticker, (price, volume)) :: s.stockHistory }

/-- Database.update_stock_price (database.py lines 70-96): when the
ticker is not in Stocks the function logs the failure and returns with
nothing inserted, reported here as the flag false; otherwise it appends
exactly one StockHistory row and reports true. -/
def update_stock_price (s : Store) (ticker : String) (price : ℚ) (volume : ℤ) : Store × Bool :=
  match alookup s.stocks ticker with
  | none => (s, false)
  | some _ =>
    ({ s with stockHistory := (ticker, (price, volume)) :: s.stockHistory }, true)

/-- Reply of the engine level handlers in market_state.py: a validation
error string, a propagated store error string (the Error test on line
313), or the success confirmation naming the user. -/
inductive EngineReply where
  | validationError
  | txError (e : TxError)
  | success (username : String)
deriving DecidableEq

/-- StockMarket.user_buy (market_state.py lines 300-319): rejects a non
positive quantity, otherwise delegates to buy_stock and propagates
error results. -/
def user_buy (s : Store) (uid : ℤ) (ticker : String) (qty : ℤ) : EngineReply × Store :=
  if qty ≤ 0 then (.validationError, s)
  else
    match buy_stock s uid ticker qty with
    | (.ok u, s') => (.success u, s')
    | (.err e, s') => (.txError e, s')

/-- StockMarket.user_sell (market_state.py lines 321-340). -/
def user_sell (s : Store) (uid : ℤ) (ticker : String) (qty : ℤ) : EngineReply × Store :=
  if qty ≤ 0 then (.validationError, s)
  else
    match sell_stock s uid ticker qty with
    | (.ok u, s') => (.success u, s')
    | (.err e, s') => (.txError e, s')

/-- StockMarket.new_user (market_state.py lines 275-280): the body that
would register the member is commented out in the source; the handler
only prints the member and returns None, leaving the database
untouched. -/
def new_user (s : Store) (member : String) : Store := s

/-- StockMarket._calculate_price_change (market_state.py lines 282-298)
with the drawn relative change passed explicitly: the fat tail regime
draws the change uniformly from [-0.2, 0.2], the normal regime draws a
Gaussian change with mean 0 and standard deviation 0.02, whose support
is unbounded. -/
def calculate_price_change (current_price change : ℚ) : ℚ :=
  current_price * (1 + change)

/-- Price written back by StockMarket.update_stock_prices (line 265):
the computed price floored through max(new_price, 0.01). -/
def next_price (current_price change : ℚ) : ℚ :=
  max (calculate_price_change current_price change) (1 / 100)

/-- Stop words excluded from ticker generation (tickers.py lines 4-9). -/
def COMMON_WORDS : List String :=
  ["INC", "LTD", "CORPORATION", "CORP", "COMPANY", "CO", "GROUP", "SYSTEMS",
   "TECHNOLOGIES", "INDUSTRIES", "INTERNATIONAL", "HOLDINGS", "SERVICES",
   "SOLUTIONS", "GLOBAL", "LIMITED", "BUSINESS", "INCORPORATED", "ASSOCIATION",
   "FOUNDATION", "INSTITUTE", "LLC", "PLC", "AND", "&", "THE", "OF", "FOR"]

/-- Python re.sub removing every character outside word characters and
whitespace, then upper (tickers.py line 27). -/
def cleanName (name : String) : String :=
  String.mk ((name.data.filter
    (fun c => c.isAlphanum || c == '_' || c.isWhitespace)).map Char.toUpper)

/-- Whitespace split dropping empty pieces, the Python str.split with no
arguments; acc holds the characters of the current word reversed. -/
def splitWsAux : List Char → List Char → List String
  | [], acc => if acc.isEmpty then [] else [String.mk acc.reverse]
  | c :: cs, acc =>
    if c.isWhitespace then
      if acc.isEmpty then splitWsAux cs []
      else String.mk acc.reverse :: splitWsAux cs []
    else splitWsAux cs (c :: acc)

/-- Whitespace tokenizer over a string. -/
def splitWs (s : String) : List String :=
  splitWsAux s.data []

/-- Tokenization of tickers.py lines 29-33: split on whitespace, drop
stop words unless that would drop every token. -/
def nameWords (name : String) : List String :=
  let ws := splitWs (cleanName name)
  let filtered := ws.filter (fun w => !(COMMON_WORDS.contains w))
  if filtered.isEmpty then ws else filtered

/-- Candidate built in the collision loop of tickers.py lines 42-52:
token i contributes its first len+1 characters, every other token its
first character, truncated to maxLen. -/
def widenCandidate (words : List String) (len i maxLen : ℕ) : String :=
  (String.join (words.enum.map
    (fun p => if p.1 = i then p.2.take (len + 1) else p.2.take 1))).take maxLen

/-- Collision loop of tickers.py lines 42-52: for length from 1 to
maxLen - 1 and each token index in order, try the widened candidate
when the token is long enough and the candidate is not yet taken. -/
def widenSearch (words : List String) (existing : List String) (maxLen : ℕ) :
    Option String :=
  (List.range' 1 (maxLen - 1)).findSome? (fun len =>
    (List.range words.length).findSome? (fun i =>
      if (words.getD i "").length > len then
        let cand := widenCandidate words len i maxLen
        if existing.contains cand then none else some cand
      else none))

/-- Prefix loop of tickers.py lines 54-59: successively longer prefixes
of the concatenated tokens, each truncated to maxLen. -/
def concatSearch (concatenated : String) (start : ℕ) (existing : List String)
    (maxLen : ℕ) : Option String :=
  (List.range' start (concatenated.length + 1 - start)).findSome? (fun i =>
    let cand := (concatenated.take i).take maxLen
    if existing.contains cand then none else some cand)

/-- generate_ticker (tickers.py lines 11-62), ending with the documented
last resort that returns the truncated concatenation even when taken. -/
def generate_ticker (name : String) (existing : List String) (maxLen : ℕ) : String :=
  let words := nameWords name
  let ticker := (String.join (words.map (fun w => w.take 1))).take maxLen
  if existing.contains ticker then
    match widenSearch words existing maxLen with
    | some t => t
    | none =>
      match concatSearch (String.join words) ticker.length existing maxLen with
      | some t => t
      | none => (String.join words).take maxLen
  else ticker

/-- Fold of generate_company_tickers (tickers.py lines 81-84): assign a
ticker to each name in order, accumulating the set of taken tickers. -/
def assignTickers (maxLen : ℕ) : List String → List String → List (String × String)
  | [], _ => []
  | n :: rest, existing =>
    (n, generate_ticker n existing maxLen) ::
      assignTickers maxLen rest (generate_ticker n existing maxLen :: existing)

/-- generate_company_tickers (tickers.py lines 64-86). Python first
deduplicates through an unordered set whose iteration order is
unspecified, an ambiguity the spec flags; the model keeps first
occurrences in input order. -/
def generate_company_tickers (names : List String) (maxLen : ℕ) : List (String × String) :=
  assignTickers maxLen names.eraseDups []

/-- Freshness of one assignment run: every generated ticker was not yet
taken, i.e. the degraded last resort duplicate case never fires. -/
def freshRun (maxLen : ℕ) : List String → List String → Bool
  | [], _ => true
  | n :: rest, existing =>
    !(existing.contains (generate_ticker n existing maxLen)) &&
      freshRun maxLen rest (generate_ticker n existing maxLen :: existing)

/-- Empty database state. -/
def emptyStore : Store :=
  { users := [], userHistory := [], stocks := [], stockHistory := [] }

/-- Example state: one user with the fixed starting cash and one stock
with one price snapshot. -/
def exampleStore : Store :=
  { users := [(1, "alice")],
    userHistory := [(1, ⟨100000, 100000, []⟩)],
    stocks := [("ACM", "Acme Corp")],
    stockHistory := [("ACM", (50, 0))] }

/-- Example state: the user already holds 10 shares of ACM at average
price 50. -/
def exampleStore2 : Store :=
  { users := [(1, "alice")],
    userHistory := [(1, ⟨100000, 99500, [("ACM", ⟨10, 50⟩)]⟩)],
    stocks := [("ACM", "Acme Corp")],
    stockHistory := [("ACM", (50, 0))] }

/-- Lookup in the left part of an append when the key is found there. -/
theorem alookup_append_left {α β : Type} [DecidableEq α] {l₁ l₂ : List (α × β)}
    {k : α} {v : β} (h : alookup l₁ k = some v) : alookup (l₁ ++ l₂) k = some v := by
  induction l₁ with
  | nil => simp [alookup] at h
  | cons p rest ih =>
    obtain ⟨a, b⟩ := p
    by_cases hk : a = k
    · simpa [alookup, hk] using h
    · simp only [alookup, List.cons_append, if_neg hk] at h ⊢
      exact ih h

/-- Lookup skips the left part of an append when the key is absent. -/
theorem alookup_append_none {α β : Type} [DecidableEq α] {l₁ : List (α × β)}
    (l₂ : List (α × β)) {k : α} (h : alookup l₁ k = none) :
    alookup (l₁ ++ l₂) k = alookup l₂ k := by
  induction l₁ with
  | nil => simp
  | cons p rest ih =>
    obtain ⟨a, b⟩ := p
    by_cases hk : a = k
    · simp [alookup, hk] at h
    · simp only [alookup, List.cons_append, if_neg hk] at h ⊢
      exact ih h

/-- Appending a fresh key makes it found with its value. -/
theorem alookup_append_singleton {α β : Type} [DecidableEq α] {l : List (α × β)}
    {k : α} (v : β) (h : alookup l k = none) :
    alookup (l ++ [(k, v)]) k = some v := by
  rw [alookup_append_none _ h]
  simp [alookup]

/-- A successful lookup comes from a member pair. -/
theorem mem_of_alookup {α β : Type} [DecidableEq α] {l : List (α × β)}
    {k : α} {v : β} (h : alookup l k = some v) : (k, v) ∈ l := by
  induction l with
  | nil => simp [alookup] at h
  | cons p rest ih =>
    obtain ⟨a, b⟩ := p
    by_cases hk : a = k
    · simp only [alookup, if_pos hk] at h
      cases h
      subst hk
      exact List.mem_cons_self _ _
    · simp only [alookup, if_neg hk] at h
      exact List.mem_cons_of_mem _ (ih h)

/-- Updating a key makes it found with the new value. -/
theorem alookup_aupdate_self {α β : Type} [DecidableEq α] (l : List (α × β))
    (k : α) (v : β) : alookup (aupdate l k v) k = some v := by
  induction l with
  | nil => simp [aupdate, alookup]
  | cons p rest ih =>
    obtain ⟨a, b⟩ := p
    by_cases hk : a = k
    · simp [aupdate, alookup, hk]
    · simp only [aupdate, if_neg hk, alookup]
      exact ih

/-- Every pair of an updated list is an old pair or the new pair. -/
theorem mem_aupdate {α β : Type} [DecidableEq α] {l : List (α × β)}
    {k : α} {v : β} {p : α × β} (h : p ∈ aupdate l k v) : p ∈ l ∨ p = (k, v) := by
  induction l with
  | nil =>
    simp [aupdate] at h
    right
    simp [h]
  | cons q rest ih =>
    obtain ⟨a, b⟩ := q
    by_cases hk : a = k
    · simp only [aupdate, if_pos hk] at h
      rcases List.mem_cons.mp h with h1 | h1
      · right; rw [h1, hk]
      · left; exact List.mem_cons_of_mem _ h1
    · simp only [aupdate, if_neg hk] at h
      rcases List.mem_cons.mp h with h1 | h1
      · left; rw [h1]; exact List.mem_cons_self _ _
      · rcases ih h1 with h2 | h2
        · left; exact List.mem_cons_of_mem _ h2
        · right; exact h2

/-- Every pair surviving an erase was a pair of the original list. -/
theorem mem_aerase {α β : Type} [DecidableEq α] {l : List (α × β)}
    {k : α} {p : α × β} (h : p ∈ aerase l k) : p ∈ l := by
  induction l with
  | nil => simp [aerase] at h
  | cons q rest ih =>
    obtain ⟨a, b⟩ := q
    by_cases hk : a = k
    · simp only [aerase, if_pos hk] at h
      exact List.mem_cons_of_mem _ h
    · simp only [aerase, if_neg hk] at h
      rcases List.mem_cons.mp h with h1 | h1
      · rw [h1]; exact List.mem_cons_self _ _
      · exact List.mem_cons_of_mem _ (ih h1)

/-- A key outside the key list is not found. -/
theorem alookup_none_of_not_mem {α β : Type} [DecidableEq α] {l : List (α × β)}
    {k : α} (h : k ∉ l.map Prod.fst) : alookup l k = none := by
  induction l with
  | nil => simp [alookup]
  | cons p rest ih =>
    obtain ⟨a, b⟩ := p
    simp only [List.map_cons, List.mem_cons] at h
    push_neg at h
    simp only [alookup]
    rw [if_neg (Ne.symm h.1)]
    exact ih h.2

/-- With unique keys, erasing a key removes every occurrence of it. -/
theorem alookup_aerase_self {α β : Type} [DecidableEq α] {l : List (α × β)}
    (k : α) (h : (l.map Prod.fst).Nodup) : alookup (aerase l k) k = none := by
  induction l with
  | nil => simp [aerase, alookup]
  | cons p rest ih =>
    obtain ⟨a, b⟩ := p
    simp only [List.map_cons, List.nodup_cons] at h
    by_cases hk : a = k
    · simp only [aerase, if_pos hk]
      exact alookup_none_of_not_mem (hk ▸ h.1)
    · simp only [aerase, if_neg hk, alookup]
      exact ih h.2

/-- Updating the key just appended rewrites only that final entry. -/
theorem aupdate_append_singleton {α β : Type} [DecidableEq α] {l : List (α × β)}
    {k : α} (a b : β) (h : alookup l k = none) :
    aupdate (l ++ [(k, a)]) k b = l ++ [(k, b)] := by
  induction l with
  | nil => simp [aupdate]
  | cons p rest ih =>
    obtain ⟨x, y⟩ := p
    by_cases hk : x = k
    · simp [alookup, hk] at h
    · simp only [alookup, if_neg hk] at h
      simp only [List.cons_append, aupdate, if_neg hk]
      exact congrArg _ (ih h)

/-- Erasing the key just appended restores the original list. -/
theorem aerase_append_singleton {α β : Type} [DecidableEq α] {l : List (α × β)}
    {k : α} (a : β) (h : alookup l k = none) :
    aerase (l ++ [(k, a)]) k = l := by
  induction l with
  | nil => simp [aerase]
  | cons p rest ih =>
    obtain ⟨x, y⟩ := p
    by_cases hk : x = k
    · simp [alookup, hk] at h
    · simp only [alookup, if_neg hk] at h
      simp only [List.cons_append, aerase, if_neg hk]
      exact congrArg _ (ih h)

/-- The user row components behind a successful lookupLatest. -/
theorem lookupLatest_elim {s : Store} {uid : ℤ} {u : String} {snap : UserSnapshot}
    (h : lookupLatest s uid = some (u, snap)) :
    alookup s.users uid = some u ∧ alookup s.userHistory uid = some snap := by
  unfold lookupLatest at h
  split at h
  · next name snap2 hn hh =>
    simp only [Option.some.injEq, Prod.mk.injEq] at h
    exact ⟨h.1 ▸ hn, h.2 ▸ hh⟩
  · simp at h

/-- lookupLatest after a user history prepend for the same user. -/
theorem lookupLatest_cons {s : Store} {uid : ℤ} {u : String}
    (snap : UserSnapshot) (hu : alookup s.users uid = some u) :
    lookupLatest { s with userHistory := (uid, snap) :: s.userHistory } uid =
      some (u, snap) := by
  simp [lookupLatest, alookup, hu]

/-- Structure of a successful buy: the checks it passed and the single
snapshot it appends. -/
theorem buy_ok {s : Store} {uid : ℤ} {t u : String} {qty : ℤ} {s' : Store}
    (h : buy_stock s uid t qty = (.ok u, s')) :
    ∃ price snap port' pv,
      get_latest_price s t = some price ∧
      lookupLatest s uid = some (u, snap) ∧
      ¬ snap.cash < (qty : ℚ) * price ∧
      buyUpdate snap.portfolio t qty price = some port' ∧
      portfolioValue s port' = some pv ∧
      s' = { s with userHistory :=
               (uid, ⟨snap.cash - (qty : ℚ) * price + pv,
                      snap.cash - (qty : ℚ) * price, port'⟩) :: s.userHistory } := by
  unfold buy_stock at h
  split at h
  · simp at h
  next price hp =>
    split at h
    · simp at h
    next username snap hu =>
      split at h
      · simp at h
      next hcash =>
        split at h
        · simp at h
        next port' hport =>
          split at h
          · simp at h
          next pv hpv =>
            simp only [Prod.mk.injEq, TxResult.ok.injEq] at h
            obtain ⟨rfl, rfl⟩ := h
            exact ⟨price, snap, port', pv, hp, hu, hcash, hport, hpv, rfl⟩

/-- Structure of a successful sell: the checks it passed and the single
snapshot it appends. -/
theorem sell_ok {s : Store} {uid : ℤ} {t u : String} {qty : ℤ} {s' : Store}
    (h : sell_stock s uid t qty = (.ok u, s')) :
    ∃ sellPrice snap pos pv,
      get_latest_price s t = some sellPrice ∧
      lookupLatest s uid = some (u, snap) ∧
      alookup snap.portfolio t = some pos ∧
      ¬ pos.quantity < qty ∧
      portfolioValue s (if pos.quantity = qty then aerase snap.portfolio t
        else aupdate snap.portfolio t ⟨pos.quantity - qty, pos.average_price⟩) = some pv ∧
      s' = { s with userHistory :=
               (uid, ⟨snap.cash + (qty : ℚ) * sellPrice + pv,
                      snap.cash + (qty : ℚ) * sellPrice,
                      if pos.quantity = qty then aerase snap.portfolio t
                      else aupdate snap.portfolio t
                        ⟨pos.quantity - qty, pos.average_price⟩⟩) :: s.userHistory } := by
  unfold sell_stock at h
  split at h
  · simp at h
  next sellPrice hp =>
    split at h
    · simp at h
    next username snap hu =>
      split at h
      · simp at h
      next pos hpos =>
        split at h
        · simp at h
        next hqty =>
          split at h
          · simp at h
          next pv hpv =>
            simp only [Prod.mk.injEq, TxResult.ok.injEq] at h
            obtain ⟨rfl, rfl⟩ := h
            exact ⟨sellPrice, snap, pos, pv, hp, hu, hpos, hqty, hpv, rfl⟩

/-- A success reply of the engine buy handler means the quantity passed
validation and the store buy succeeded. -/
theorem user_buy_success {s : Store} {uid : ℤ} {t r : String} {qty : ℤ} {s' : Store}
    (h : user_buy s uid t qty = (.success r, s')) :
    0 < qty ∧ buy_stock s uid t qty = (.ok r, s') := by
  unfold user_buy at h
  split at h
  · simp at h
  next hq =>
    split at h
    next u s2 hb =>
      simp only [Prod.mk.injEq, EngineReply.success.injEq] at h
      obtain ⟨rfl, rfl⟩ := h
      exact ⟨by omega, hb⟩
    next e s2 hb => simp at h

/-- A success reply of the engine sell handler means the quantity passed
validation and the store sell succeeded. -/
theorem user_sell_success {s : Store} {uid : ℤ} {t r : String} {qty : ℤ} {s' : Store}
    (h : user_sell s uid t qty = (.success r, s')) :
    0 < qty ∧ sell_stock s uid t qty = (.ok r, s') := by
  unfold user_sell at h
  split at h
  · simp at h
  next hq =>
    split at h
    next u s2 hb =>
      simp only [Prod.mk.injEq, EngineReply.success.injEq] at h
      obtain ⟨rfl, rfl⟩ := h
      exact ⟨by omega, hb⟩
    next e s2 hb => simp at h

/-- Adding a user that is already registered is a no-op. -/
theorem add_user_of_found {s : Store} {uid : ℤ} {u : String} (n : String) (c : ℚ)
    (h : alookup s.users uid = some u) : add_user s uid n c = s := by
  unfold add_user
  rw [h]

/-- After add_user the user id is present in the Users table. -/
theorem add_user_found (s : Store) (uid : ℤ) (n : String) (c : ℚ) :
    ∃ u, alookup (add_user s uid n c).users uid = some u := by
  unfold add_user
  cases hu : alookup s.users uid with
  | some name => exact ⟨name, hu⟩
  | none => exact ⟨n, alookup_append_singleton n hu⟩

/-- After insert_stock_data the ticker is present in the Stocks table. -/
theorem insert_stock_data_found (s : Store) (nm tk : String) (p : ℚ) (v : ℤ) :
    ∃ x, alookup (insert_stock_data s nm tk p v).stocks tk = some x := by
  unfold insert_stock_data
  cases hs : alookup s.stocks tk with
  | some name => exact ⟨name, hs⟩
  | none => exact ⟨nm, alookup_append_singleton nm hs⟩

/-- insert_stock_data leaves the Stocks table unchanged when the ticker
is already present. -/
theorem insert_stock_data_stocks_of_found {s : Store} {tk : String} {x : String}
    (nm : String) (p : ℚ) (v : ℤ) (hx : alookup s.stocks tk = some x) :
    (insert_stock_data s nm tk p v).stocks = s.stocks := by
  unfold insert_stock_data
  simp only [hx]

/-- C1: for a stock with a listed price and a user with a persisted
history, a buy whose total cost qty times price exceeds the user cash
returns the insufficient funds error, and a sell whose quantity exceeds
the held quantity of the symbol returns the insufficient shares error;
in both cases the returned store is exactly the input store — cash,
holdings and the whole persisted user history are untouched and no new
snapshot is appended. -/
theorem C1_insufficient_rejected (s : Store) (uid : ℤ) (t : String) (qty : ℤ)
    (p : ℚ) (u : String) (snap : UserSnapshot)
    (hp : get_latest_price s t = some p)
    (hu : lookupLatest s uid = some (u, snap)) :
    (snap.cash < (qty : ℚ) * p →
       buy_stock s uid t qty = (.err .insufficientFunds, s)) ∧
    (heldQty snap.portfolio t < qty →
       sell_stock s uid t qty = (.err .insufficientShares, s)) := by
  constructor
  · intro hlt
    unfold buy_stock
    simp only [hp, hu]
    rw [if_pos hlt]
  · intro hlt
    unfold heldQty at hlt
    unfold sell_stock
    cases hpos : alookup snap.portfolio t with
    | none => simp only [hp, hu, hpos]
    | some pos =>
      rw [hpos] at hlt
      simp only [hp, hu, hpos]
      rw [if_pos hlt]

/-- Witness for C1 on a concrete store: a buy of 10000 shares at price
50 against cash 100000 is rejected, and a sell of 1 share with empty
holdings is rejected, both leaving the store identical. -/
theorem C1_witness :
    buy_stock exampleStore 1 "ACM" 10000 = (.err .insufficientFunds, exampleStore) ∧
    sell_stock exampleStore 1 "ACM" 1 = (.err .insufficientShares, exampleStore) :=
  ⟨(C1_insufficient_rejected exampleStore 1 "ACM" 10000 50 "alice" ⟨100000, 100000, []⟩
      (by norm_num [get_latest_price, alookup, exampleStore])
      (by norm_num [lookupLatest, alookup, exampleStore])).1
      (by norm_num),
   (C1_insufficient_rejected exampleStore 1 "ACM" 1 50 "alice" ⟨100000, 100000, []⟩
      (by norm_num [get_latest_price, alookup, exampleStore])
      (by norm_num [lookupLatest, alookup, exampleStore])).2
      (by norm_num [heldQty, alookup])⟩

/-- C4 counterexample: calling insert_stock_data twice with the same
stock does not leave the store as after one call — the second call
appends a second price snapshot, so the claimed full idempotence fails
on the price-snapshot history. -/
theorem C4_counterexample :
    insert_stock_data (insert_stock_data emptyStore "Acme Corp" "ACM" 50 0)
        "Acme Corp" "ACM" 50 0 ≠
      insert_stock_data emptyStore "Acme Corp" "ACM" 50 0 := by
  simp [insert_stock_data, alookup, emptyStore, Store.mk.injEq]

/-- C4 amended: add_user is idempotent — the second call with the same
user id is a full no-op; insert_stock_data called again with the same
stock leaves the Users, UserHistory and Stocks tables unchanged but
appends one further price snapshot, so stock creation is idempotent only
for the Stocks row, not for the snapshot history. -/
theorem C4_amended_idempotence (s : Store) (uid : ℤ) (n : String) (c : ℚ)
    (nm tk : String) (p : ℚ) (v : ℤ) :
    add_user (add_user s uid n c) uid n c = add_user s uid n c ∧
    (insert_stock_data (insert_stock_data s nm tk p v) nm tk p v).users =
      (insert_stock_data s nm tk p v).users ∧
    (insert_stock_data (insert_stock_data s nm tk p v) nm tk p v).userHistory =
      (insert_stock_data s nm tk p v).userHistory ∧
    (insert_stock_data (insert_stock_data s nm tk p v) nm tk p v).stocks =
      (insert_stock_data s nm tk p v).stocks ∧
    (insert_stock_data (insert_stock_data s nm tk p v) nm tk p v).stockHistory =
      (tk, (p, v)) :: (insert_stock_data s nm tk p v).stockHistory := by
  obtain ⟨u, hu⟩ := add_user_found s uid n c
  obtain ⟨x, hx⟩ := insert_stock_data_found s nm tk p v
  exact ⟨add_user_of_found n c hu, rfl, rfl,
    insert_stock_data_stocks_of_found nm p v hx, rfl⟩

/-- C6: the price written back by the update cycle is the current price
times one plus the drawn relative change, floored at 0.01, and is
therefore at least 0.01 for every input price at least 0.01 and every
drawn change — in particular in both regimes, the fat tail uniform draw
from [-0.2, 0.2] and the unbounded Gaussian draw. -/
theorem C6_price_floor (p change : ℚ) (hp : 1 / 100 ≤ p) :
    1 / 100 ≤ next_price p change := by
  unfold next_price
  exact le_max_right _ _

/-- Witness for C6 with price 5 and a catastrophic relative change of
-300 percent. -/
theorem C6_witness : (1 : ℚ) / 100 ≤ 5 ∧ (1 : ℚ) / 100 ≤ next_price 5 (-3) :=
  ⟨by norm_num, C6_price_floor 5 (-3) (by norm_num)⟩

/-- C8: update_stock_price on an unknown ticker is the observable error
outcome — it logs, inserts nothing and leaves the store exactly as it
was; on a known ticker it succeeds and appends exactly one new price
snapshot, touching no other table. -/
theorem C8_update_snapshot (s : Store) (t : String) (p : ℚ) (v : ℤ) :
    (alookup s.stocks t = none → update_stock_price s t p v = (s, false)) ∧
    (∀ nm, alookup s.stocks t = some nm →
      update_stock_price s t p v =
        ({ s with stockHistory := (t, (p, v)) :: s.stockHistory }, true)) := by
  constructor
  · intro h
    unfold update_stock_price
    rw [h]
  · intro nm h
    unfold update_stock_price
    rw [h]

/-- Witness for C8: the unknown ticker ZZZ fails leaving the store
unchanged, the known ticker ACM gets exactly one appended snapshot. -/
theorem C8_witness :
    update_stock_price exampleStore "ZZZ" 5 0 = (exampleStore, false) ∧
    update_stock_price exampleStore "ACM" 60 0 =
      ({ exampleStore with
          stockHistory := ("ACM", (60, 0)) :: exampleStore.stockHistory }, true) :=
  ⟨(C8_update_snapshot exampleStore "ZZZ" 5 0).1 (by decide),
   (C8_update_snapshot exampleStore "ACM" 60 0).2 "Acme Corp" (by decide)⟩

/-- C9 (code bug evidence): the NEW USER handler body in market_state.py
lines 275-280 is commented out, so handling the event registers nothing:
the store after the handler is the very store passed in, and a member
not yet registered — here user id 42 against the empty store — still
does not exist afterwards, contradicting the claimed registration with
starting cash. -/
theorem C9_new_user_stub :
    new_user emptyStore "42:newmember" = emptyStore ∧
    user_exists (new_user emptyStore "42:newmember") 42 = false :=
  ⟨rfl, rfl⟩

/-- latestCash after prepending a history row for the user. -/
theorem latestCash_cons (s : Store) (uid : ℤ) (snap : UserSnapshot) {u : String}
    (hu : alookup s.users uid = some u) :
    latestCash { s with userHistory := (uid, snap) :: s.userHistory } uid =
      some snap.cash := by
  rw [latestCash, lookupLatest_cons snap hu]
  rfl

/-- C10: when the symbol has a price, the user has a history and the
post-purchase valuation succeeds, the buy is rejected with the
insufficient funds error exactly when cash is strictly below qty times
price; a buy whose total cost equals the cash exactly succeeds and the
newly persisted cash is exactly 0, the boundary of the nonnegative cash
invariant. -/
theorem C10_exact_funds_boundary (s : Store) (uid : ℤ) (t : String) (qty : ℤ)
    (p : ℚ) (u : String) (snap : UserSnapshot) (port' : Portfolio) (pv : ℚ)
    (hp : get_latest_price s t = some p)
    (hu : lookupLatest s uid = some (u, snap))
    (hport : buyUpdate snap.portfolio t qty p = some port')
    (hpv : portfolioValue s port' = some pv) :
    ((buy_stock s uid t qty).1 = .err .insufficientFunds ↔
       snap.cash < (qty : ℚ) * p) ∧
    (snap.cash = (qty : ℚ) * p →
      (buy_stock s uid t qty).1 = .ok u ∧
      latestCash (buy_stock s uid t qty).2 uid = some 0) := by
  have hkey : buy_stock s uid t qty =
      if snap.cash < (qty : ℚ) * p then (.err .insufficientFunds, s)
      else (.ok u, { s with userHistory :=
        (uid, ⟨snap.cash - (qty : ℚ) * p + pv, snap.cash - (qty : ℚ) * p, port'⟩) ::
          s.userHistory }) := by
    unfold buy_stock
    simp only [hp, hu]
    by_cases hc : snap.cash < (qty : ℚ) * p
    · rw [if_pos hc, if_pos hc]
    · rw [if_neg hc, if_neg hc]
      simp only [hport, hpv]
  by_cases hc : snap.cash < (qty : ℚ) * p
  · rw [hkey, if_pos hc]
    constructor
    · simp [hc]
    · intro heq
      rw [heq] at hc
      exact absurd hc (lt_irrefl _)
  · rw [hkey, if_neg hc]
    constructor
    · simp [hc]
    · intro heq
      refine ⟨rfl, ?_⟩
      rw [latestCash_cons _ _ _ (lookupLatest_elim hu).1]
      simp [heq]

/-- Witness for C10: cash 100000, price 50 and quantity 2000 make the
total cost equal the cash exactly; the buy succeeds with new cash 0. -/
theorem C10_witness :
    (buy_stock exampleStore 1 "ACM" 2000).1 = .ok "alice" ∧
    latestCash (buy_stock exampleStore 1 "ACM" 2000).2 1 = some 0 :=
  (C10_exact_funds_boundary exampleStore 1 "ACM" 2000 50 "alice"
      ⟨100000, 100000, []⟩ [("ACM", ⟨2000, 50⟩)] 100000
      (by norm_num [get_latest_price, alookup, exampleStore])
      (by norm_num [lookupLatest, alookup, exampleStore])
      (by norm_num [buyUpdate, alookup])
      (by norm_num [portfolioValue, get_latest_price, alookup, exampleStore])).2
    (by norm_num)

/-- C3: with the price held fixed — no price update runs in between, and
buy_stock itself never touches the price tables — a successful buy of q
shares followed by a successful sell of q shares of the same symbol
returns the latest persisted cash of the user to its value before the
buy. -/
theorem C3_roundtrip (s s1 s2 : Store) (uid : ℤ) (t u1 u2 : String) (qty : ℤ)
    (hq : 0 < qty)
    (hb : buy_stock s uid t qty = (.ok u1, s1))
    (hs : sell_stock s1 uid t qty = (.ok u2, s2)) :
    latestCash s2 uid = latestCash s uid := by
  obtain ⟨p, snap, port', pv, hp, hu, hcash, hport, hpv, hs1⟩ := buy_ok hb
  obtain ⟨p2, snap2, pos2, pv2, hp2, hu2, hpos2, hq2, hpv2, hs2eq⟩ := sell_ok hs
  subst hs1
  have husers : alookup s.users uid = some u1 := (lookupLatest_elim hu).1
  have hp2' : get_latest_price s t = some p2 := hp2
  have hpp : p2 = p := by
    rw [hp] at hp2'
    exact (Option.some.inj hp2').symm
  have hlook := lookupLatest_cons (s := s)
    (⟨snap.cash - (qty : ℚ) * p + pv, snap.cash - (qty : ℚ) * p, port'⟩ : UserSnapshot)
    husers
  rw [hu2] at hlook
  simp only [Option.some.injEq, Prod.mk.injEq] at hlook
  obtain ⟨he1, he2⟩ := hlook
  have hcash2 : latestCash s2 uid = some (snap2.cash + (qty : ℚ) * p2) := by
    rw [hs2eq]
    simp [latestCash, lookupLatest, alookup, husers]
  rw [hcash2, latestCash, hu]
  simp only [Option.map_some', Option.some.injEq]
  rw [he2, hpp]
  show snap.cash - (qty : ℚ) * p + (qty : ℚ) * p = snap.cash
  ring

/-- latestPortfolio reads the newest history row. -/
theorem latestPortfolio_of_hist {s : Store} {uid : ℤ} {snap : UserSnapshot}
    (h : alookup s.userHistory uid = some snap) :
    latestPortfolio s uid = snap.portfolio := by
  unfold latestPortfolio
  rw [h]

/-- C5: positions stay strictly positive and removal happens exactly at
zero. For a user with unique portfolio keys and all held quantities
positive: a validated buy preserves positivity of every stored quantity;
a validated sell preserves positivity, deletes the entry exactly when
the full held quantity is sold, and otherwise leaves the entry with the
still positive remainder heldQty minus qty. -/
theorem C5_position_invariant (s : Store) (uid : ℤ) (t : String) (qty : ℤ)
    (u : String) (snap : UserSnapshot)
    (hu : lookupLatest s uid = some (u, snap))
    (hnodup : (snap.portfolio.map Prod.fst).Nodup)
    (hinv : ∀ pr ∈ snap.portfolio, 0 < pr.2.quantity) :
    (∀ r s', user_buy s uid t qty = (.success r, s') →
       ∀ pr ∈ latestPortfolio s' uid, 0 < pr.2.quantity) ∧
    (∀ r s', user_sell s uid t qty = (.success r, s') →
       ((∀ pr ∈ latestPortfolio s' uid, 0 < pr.2.quantity) ∧
        (heldQty snap.portfolio t = qty →
          alookup (latestPortfolio s' uid) t = none) ∧
        (qty < heldQty snap.portfolio t →
          ∃ pos', alookup (latestPortfolio s' uid) t = some pos' ∧
            pos'.quantity = heldQty snap.portfolio t - qty ∧
            0 < pos'.quantity))) := by
  constructor
  · intro r s' hub pr hpr
    obtain ⟨hqpos, hb⟩ := user_buy_success hub
    obtain ⟨p, snap2, port', pv, hp, hu2, hcash, hport, hpv, hs'⟩ := buy_ok hb
    rw [hu] at hu2
    simp only [Option.some.injEq, Prod.mk.injEq] at hu2
    obtain ⟨hru, hrs⟩ := hu2
    subst hrs
    have hlp : latestPortfolio s' uid = port' := by
      rw [hs']
      simp [latestPortfolio, alookup]
    rw [hlp] at hpr
    unfold buyUpdate at hport
    cases hpos : alookup snap.portfolio t with
    | some pos =>
      rw [hpos] at hport
      by_cases hz : pos.quantity + qty = 0
      · simp [hz] at hport
      · simp only [hz, if_false, Option.some.injEq, ite_false] at hport
        rcases mem_aupdate (hport ▸ hpr) with hmem | heq
        · exact hinv pr hmem
        · rw [heq]
          show (0 : ℤ) < pos.quantity + qty
          have := hinv (t, pos) (mem_of_alookup hpos)
          simp only at this
          omega
    | none =>
      rw [hpos] at hport
      injection hport with hport
      rcases List.mem_append.mp (hport ▸ hpr) with hmem | hmem
      · exact hinv pr hmem
      · simp only [List.mem_singleton] at hmem
        rw [hmem]
        exact hqpos
  · intro r s' hus
    obtain ⟨hqpos, hsell⟩ := user_sell_success hus
    obtain ⟨sp, snap2, pos, pv, hp, hu2, hpos, hql, hpv, hs'⟩ := sell_ok hsell
    rw [hu] at hu2
    simp only [Option.some.injEq, Prod.mk.injEq] at hu2
    obtain ⟨hru, hrs⟩ := hu2
    subst hrs
    have hlp : latestPortfolio s' uid =
        (if pos.quantity = qty then aerase snap.portfolio t
         else aupdate snap.portfolio t ⟨pos.quantity - qty, pos.average_price⟩) := by
      rw [hs']
      simp [latestPortfolio, alookup]
    have hheld : heldQty snap.portfolio t = pos.quantity := by
      unfold heldQty
      rw [hpos]
    by_cases hfull : pos.quantity = qty
    · refine ⟨?_, ?_, ?_⟩
      · intro pr hpr
        rw [hlp, if_pos hfull] at hpr
        exact hinv pr (mem_aerase hpr)
      · intro _
        rw [hlp, if_pos hfull]
        exact alookup_aerase_self t hnodup
      · intro hlt
        rw [hheld, hfull] at hlt
        exact absurd hlt (lt_irrefl _)
    · have hgt : qty < pos.quantity :=
        lt_of_le_of_ne (not_lt.mp hql) (Ne.symm hfull)
      refine ⟨?_, ?_, ?_⟩
      · intro pr hpr
        rw [hlp, if_neg hfull] at hpr
        rcases mem_aupdate hpr with hmem | heq
        · exact hinv pr hmem
        · rw [heq]
          show (0 : ℤ) < pos.quantity - qty
          omega
      · intro heq
        rw [hheld] at heq
        exact absurd heq hfull
      · intro hlt
        refine ⟨⟨pos.quantity - qty, pos.average_price⟩, ?_, ?_, ?_⟩
        · rw [hlp, if_neg hfull]
          exact alookup_aupdate_self _ _ _
        · rw [hheld]
        · show (0 : ℤ) < pos.quantity - qty
          omega

/-- Witness for C5: selling the full 10 held shares removes the ACM
entry from the latest persisted holdings. -/
theorem C5_witness :
    alookup (latestPortfolio (user_sell exampleStore2 1 "ACM" 10).2 1) "ACM" = none :=
  (((C5_position_invariant exampleStore2 1 "ACM" 10 "alice"
      ⟨100000, 99500, [("ACM", ⟨10, 50⟩)]⟩
      (by norm_num [lookupLatest, alookup, exampleStore2])
      (by simp)
      (by norm_num)).2
    "alice" (user_sell exampleStore2 1 "ACM" 10).2
    (by norm_num [user_sell, sell_stock, get_latest_price, lookupLatest, alookup,
      portfolioValue, aerase, exampleStore2])).2.1)
    (by norm_num [heldQty, alookup])

/-- C2: a first buy of q1 shares at latest price p1 opens the position
at average price p1; after a price update to p2 and a second buy of q2
shares, the stored average_price is the cost basis weighted average
(q1 p1 + q2 p2) / (q1 + q2); and any subsequent successful sell leaves
the average_price of the surviving entry unchanged. -/
theorem C2_average_price (s s1 s2 s3 : Store) (uid : ℤ) (t u1 u2 : String)
    (q1 q2 : ℤ) (p1 p2 : ℚ) (pos : Position)
    (hq1 : 0 < q1) (hq2 : 0 < q2)
    (hp1 : get_latest_price s t = some p1)
    (hpos0 : alookup (latestPortfolio s uid) t = none)
    (hb1 : buy_stock s uid t q1 = (.ok u1, s1))
    (hup : update_stock_price s1 t p2 0 = (s2, true))
    (hb2 : buy_stock s2 uid t q2 = (.ok u2, s3))
    (hpos3 : alookup (latestPortfolio s3 uid) t = some pos) :
    pos.average_price = ((q1 : ℚ) * p1 + (q2 : ℚ) * p2) / ((q1 : ℚ) + (q2 : ℚ)) ∧
    (∀ qs s4 u3 pos', sell_stock s3 uid t qs = (.ok u3, s4) →
      alookup (latestPortfolio s4 uid) t = some pos' →
      pos'.average_price = pos.average_price) := by
  obtain ⟨p, snap, port1, pv1, hp, hu, hc1, hport1, hpv1, hs1⟩ := buy_ok hb1
  have hpe : p1 = p := by
    rw [hp] at hp1
    exact (Option.some.inj hp1).symm
  subst hpe
  have husers : alookup s.users uid = some u1 := (lookupLatest_elim hu).1
  have hhist : alookup s.userHistory uid = some snap := (lookupLatest_elim hu).2
  rw [latestPortfolio_of_hist hhist] at hpos0
  unfold buyUpdate at hport1
  rw [hpos0] at hport1
  injection hport1 with hport1
  subst hport1
  subst hs1
  unfold update_stock_price at hup
  split at hup
  · simp at hup
  next nm hsome =>
    simp only [Prod.mk.injEq, and_true] at hup
    subst hup
    have hsome' : alookup s.stocks t = some nm := hsome
    obtain ⟨pB, snapB, port2, pv2, hpB, huB, hcB, hportB, hpvB, hs3⟩ := buy_ok hb2
    simp [get_latest_price, alookup, hsome'] at hpB
    subst hpB
    simp [lookupLatest, alookup, husers] at huB
    obtain ⟨hu12, hsnapB⟩ := huB
    have hportB2 : buyUpdate
        (snap.portfolio ++ [(t, (⟨q1, p1⟩ : Position))]) t q2 p2 = some port2 := by
      rw [← hsnapB] at hportB
      exact hportB
    have halB : alookup (snap.portfolio ++ [(t, (⟨q1, p1⟩ : Position))]) t =
        some ⟨q1, p1⟩ := alookup_append_singleton _ hpos0
    have hnz : ¬ q1 + q2 = 0 := by omega
    unfold buyUpdate at hportB2
    rw [halB] at hportB2
    simp only [hnz, if_false, ite_false, Option.some.injEq] at hportB2
    rw [aupdate_append_singleton _ _ hpos0] at hportB2
    have hlp3 : latestPortfolio s3 uid = port2 := by
      rw [hs3]
      simp [latestPortfolio, alookup]
    rw [hlp3, ← hportB2, alookup_append_singleton _ hpos0] at hpos3
    injection hpos3 with hpos3
    subst hpos3
    constructor
    · show ((q1 : ℚ) * p1 + (q2 : ℚ) * p2) / (((q1 + q2 : ℤ) : ℚ)) = _
      push_cast
      ring
    · intro qs s4 u3 pos' hsell hpos4
      obtain ⟨sp, snapS, posS, pvS, hpS, huS, hposS, hqS, hpvS, hs4⟩ := sell_ok hsell
      have hlp4 : latestPortfolio s4 uid =
          (if posS.quantity = qs then aerase snapS.portfolio t
           else aupdate snapS.portfolio t ⟨posS.quantity - qs, posS.average_price⟩) := by
        rw [hs4]
        simp [latestPortfolio, alookup]
      rw [hs3] at huS
      simp [lookupLatest, alookup, husers] at huS
      obtain ⟨hu13, hsnapS⟩ := huS
      have hsp : snapS.portfolio = port2 := by
        rw [← hsnapS]
      rw [hsp] at hposS hlp4
      rw [← hportB2, alookup_append_singleton _ hpos0] at hposS
      injection hposS with hposS
      subst hposS
      rw [hlp4] at hpos4
      split at hpos4
      · rw [← hportB2, aerase_append_singleton _ hpos0, hpos0] at hpos4
        exact Option.noConfusion hpos4
      · rw [alookup_aupdate_self] at hpos4
        injection hpos4 with hpos4
        subst hpos4
        rfl

/-- Witness for C2: buy 10 shares at price 50, the price moves to 60,
buy 10 more; the stored average price is 55 = (10*50+10*60)/20, and is
what the weighted average formula gives. -/
theorem C2_witness :
    (0 : ℤ) < 10 ∧
    (⟨20, 55⟩ : Position).average_price =
      (((10 : ℤ) : ℚ) * 50 + ((10 : ℤ) : ℚ) * 60) /
        (((10 : ℤ) : ℚ) + ((10 : ℤ) : ℚ)) :=
  ⟨by norm_num,
   (C2_average_price exampleStore
      (buy_stock exampleStore 1 "ACM" 10).2
      (update_stock_price (buy_stock exampleStore 1 "ACM" 10).2 "ACM" 60 0).1
      (buy_stock
        (update_stock_price (buy_stock exampleStore 1 "ACM" 10).2 "ACM" 60 0).1
        1 "ACM" 10).2
      1 "ACM" "alice" "alice" 10 10 50 60 ⟨20, 55⟩
      (by norm_num) (by norm_num)
      (by norm_num [get_latest_price, alookup, exampleStore])
      (by norm_num [latestPortfolio, alookup, exampleStore])
      (by norm_num [buy_stock, get_latest_price, lookupLatest, buyUpdate,
        portfolioValue, aupdate, alookup, exampleStore])
      (by norm_num [update_stock_price, buy_stock, get_latest_price, lookupLatest,
        buyUpdate, portfolioValue, aupdate, alookup, exampleStore])
      (by norm_num [buy_stock, update_stock_price, get_latest_price, lookupLatest,
        buyUpdate, portfolioValue, aupdate, alookup, exampleStore])
      (by norm_num [latestPortfolio, buy_stock, update_stock_price, get_latest_price,
        lookupLatest, buyUpdate, portfolioValue, aupdate, alookup,
        exampleStore])).1⟩

/-- Witness for C3: buying 10 ACM at price 50 and then selling 10 at the
unchanged price restores the latest cash of the user. -/
theorem C3_witness :
    latestCash (sell_stock (buy_stock exampleStore 1 "ACM" 10).2 1 "ACM" 10).2 1 =
      latestCash exampleStore 1 :=
  C3_roundtrip exampleStore (buy_stock exampleStore 1 "ACM" 10).2
    (sell_stock (buy_stock exampleStore 1 "ACM" 10).2 1 "ACM" 10).2
    1 "ACM" "alice" "alice" 10
    (by norm_num)
    (by norm_num [buy_stock, get_latest_price, lookupLatest, buyUpdate,
      portfolioValue, aupdate, alookup, exampleStore])
    (by norm_num [sell_stock, buy_stock, get_latest_price, lookupLatest, buyUpdate,
      portfolioValue, aupdate, aerase, alookup, exampleStore])

/-- A fresh assignment run is injective on symbols and avoids the
accumulated set: induction kernel behind the amended C7. -/
theorem assignTickers_nodup (maxLen : ℕ) (names : List String) :
    ∀ existing : List String, freshRun maxLen names existing = true →
      ((assignTickers maxLen names existing).map Prod.snd).Nodup ∧
      ∀ x ∈ (assignTickers maxLen names existing).map Prod.snd, x ∉ existing := by
  induction names with
  | nil =>
    intro existing h
    simp [assignTickers]
  | cons n rest ih =>
    intro existing h
    unfold freshRun at h
    rw [Bool.and_eq_true] at h
    obtain ⟨h1, h2⟩ := h
    rw [Bool.not_eq_true', List.contains_eq_any_beq] at h1
    have hfresh : generate_ticker n existing maxLen ∉ existing := by
      intro hmem
      have : existing.any (generate_ticker n existing maxLen == ·) = true := by
        rw [List.any_eq_true]
        exact ⟨_, hmem, by simp⟩
      rw [h1] at this
      cases this
    obtain ⟨ihnodup, ihnotin⟩ := ih (generate_ticker n existing maxLen :: existing) h2
    constructor
    · unfold assignTickers
      simp only [List.map_cons, List.nodup_cons]
      refine ⟨?_, ihnodup⟩
      intro hmem
      exact (ihnotin _ hmem) (List.mem_cons_self _ _)
    · intro x hx
      unfold assignTickers at hx
      simp only [List.map_cons, List.mem_cons] at hx
      rcases hx with hx | hx
      · rw [hx]
        exact hfresh
      · intro hmem
        exact (ihnotin x hx) (List.mem_cons_of_mem _ hmem)

/-- C7 counterexample: the distinct names A and A. normalize to the same
token list, the collision search is exhausted, and the documented last
resort hands both the same symbol A — the mapping is not injective. -/
theorem C7_counterexample :
    ¬ ((generate_company_tickers ["A", "A."] 5).map Prod.snd).Nodup := by
  decide

/-- C7 amended: the ticker mapping is injective — no two distinct names
receive the same symbol — whenever every assigned ticker is fresh, i.e.
the degraded last resort that knowingly emits an already taken symbol is
never reached during the run. -/
theorem C7_fresh_injective (names : List String) (maxLen : ℕ)
    (h : freshRun maxLen names.eraseDups [] = true) :
    ((generate_company_tickers names maxLen).map Prod.snd).Nodup :=
  (assignTickers_nodup maxLen names.eraseDups [] h).1

/-- Witness for C7 on a concrete fresh run of two names. -/
theorem C7_witness :
    freshRun 5 (["Apple Inc", "Google"].eraseDups) [] = true ∧
    ((generate_company_tickers ["Apple Inc", "Google"] 5).map Prod.snd).Nodup :=
  ⟨by decide, C7_fresh_injective ["Apple Inc", "Google"] 5 (by decide)⟩
